import Mathlib

/-!
Shallow embedding of `scripts/ha-sync.py`: a script that polls a
Home Assistant HTTP API for entity location attributes and forwards
them to an external `position` command-line tool.

Python values appearing in parsed JSON payloads are modelled by `PyVal`;
the outside world (HTTP responses and external-process outcomes) is a
`World`; observable side effects (HTTP requests, process invocations,
printed lines) are collected in traces of `Effect`.  Fallible Python
code (uncaught exceptions such as `AttributeError` / `TypeError` on
malformed payload shapes) is modelled with `Except String`.
-/

/-- Python / JSON values as they occur in parsed response bodies.
Floats are modelled as decimal numbers `m / 10^e`, which covers every
numeric literal a JSON body can carry. -/
inductive PyVal where
  | none
  | vbool (b : Bool)
  | vint (n : Int)
  | vfloat (m : Int) (e : Nat)
  | vstr (s : String)
  | vlist (xs : List PyVal)
  | vdict (fields : List (String × PyVal))
deriving Repr

/-- Python truthiness (`bool(x)`): `None`, `False`, zero, empty string,
empty list and empty dict are falsy. -/
def pyTruthy : PyVal → Bool
  | .none => false
  | .vbool b => b
  | .vint n => !(n == 0)
  | .vfloat m _ => !(m == 0)
  | .vstr s => !s.isEmpty
  | .vlist xs => !xs.isEmpty
  | .vdict fs => !fs.isEmpty

/-- Whether a value is Python `None` (the `x is None` test). -/
def isNone : PyVal → Bool
  | .none => true
  | _ => false

/-- Single-quote character, used by Python `repr` of strings. -/
def squote : String := String.mk [Char.ofNat 39]

/-- Rendering of the decimal float `m / 10^e` the way Python `str` renders
floats: sign, integer part, point, `e` fractional digits (`.0` when `e = 0`). -/
def pyStrFloat (m : Int) (e : Nat) : String :=
  let sign := if m < 0 then "-" else ""
  if e = 0 then sign ++ toString m.natAbs ++ ".0"
  else
    let ds := (toString m.natAbs).data
    let ds := List.replicate (e + 1 - ds.length) '0' ++ ds
    sign ++ String.mk (ds.take (ds.length - e)) ++ "." ++ String.mk (ds.drop (ds.length - e))

mutual

/-- Python `repr` of a value (string escaping not modelled). -/
def pyRepr : PyVal → String
  | .none => "None"
  | .vbool true => "True"
  | .vbool false => "False"
  | .vint n => toString n
  | .vfloat m e => pyStrFloat m e
  | .vstr s => squote ++ s ++ squote
  | .vlist xs => "[" ++ pyReprList xs ++ "]"
  | .vdict fs => "\x7b" ++ pyReprFields fs ++ "\x7d"

/-- Comma-separated `repr` of list elements. -/
def pyReprList : List PyVal → String
  | [] => ""
  | [x] => pyRepr x
  | x :: xs => pyRepr x ++ ", " ++ pyReprList xs

/-- Comma-separated `repr` of dict entries. -/
def pyReprFields : List (String × PyVal) → String
  | [] => ""
  | [(k, v)] => squote ++ k ++ squote ++ ": " ++ pyRepr v
  | (k, v) :: fs => squote ++ k ++ squote ++ ": " ++ pyRepr v ++ ", " ++ pyReprFields fs

end

/-- Python `str(x)`: the string itself for strings, `repr` otherwise. -/
def pyStr : PyVal → String
  | .vstr s => s
  | v => pyRepr v

/-- Python `d.get(k, default)`.  Raises `AttributeError` (modelled as
`Except.error`) when the receiver is not a dict. -/
def dictGet (v : PyVal) (k : String) (default : PyVal) : Except String PyVal :=
  match v with
  | .vdict fs => .ok ((fs.lookup k).getD default)
  | _ => .error "AttributeError"

/-- Outcome of one HTTP GET: a response with a status code and a body that
either parses as JSON or fails to parse, or a transport-level failure
(`requests.RequestException`, which also covers JSON decode errors). -/
inductive HttpResult where
  | response (status : Nat) (body : Except String PyVal)
  | transportError (msg : String)

/-- Outcome of one external-process invocation: an exit with a status code
and captured output, or `FileNotFoundError` (binary missing). -/
inductive ProcResult where
  | exited (code : Nat) (stdout : String) (stderr : String)
  | fileNotFound

/-- The deterministic environment a run interacts with: what each HTTP GET
(url, authorization header) returns and what each process invocation
(argument list) does. -/
structure World where
  http : String → String → HttpResult
  run : List String → ProcResult

/-- Observable side effects of a run, in order. -/
inductive Effect where
  | httpGet (url : String) (auth : String)
  | procRun (args : List String)
  | printLine (msg : String)
deriving Repr, DecidableEq

/-- Path to the position binary (`POSITION_BIN` in the script). -/
def POSITION_BIN : String := "position"

/-- Hard-coded entity-id to position-name mapping (`ENTITIES` in the script). -/
def ENTITIES : List (String × String) := [("person.harper", "harper")]

/-- Request URL built by `get_entity_state`. -/
def statesUrl (hassUrl entityId : String) : String :=
  hassUrl ++ "/api/states/" ++ entityId

/-- Authorization header value built by `get_entity_state`. -/
def bearerAuth (token : String) : String := "Bearer " ++ token

/-- Message printed on a non-200 response. -/
def msgFailedFetch (entityId : String) (status : Nat) : String :=
  "Failed to fetch " ++ entityId ++ ": HTTP " ++ toString status

/-- Message printed on a transport or JSON-decode error. -/
def msgRequestError (entityId err : String) : String :=
  "Request error for " ++ entityId ++ ": " ++ err

/-- Message printed when latitude or longitude is missing. -/
def msgNoLocation (entityId stateStr : String) : String :=
  "No location for " ++ entityId ++ " (state: " ++ stateStr ++ ")"

/-- Message printed on a successful position add. -/
def msgSynced (positionName label latS lngS : String) : String :=
  "Synced " ++ positionName ++ ": " ++ label ++ " (" ++ latS ++ ", " ++ lngS ++ ")"

/-- Message printed when the position binary exits non-zero. -/
def msgFailedAdd (positionName stderr : String) : String :=
  "Failed to add position for " ++ positionName ++ ": " ++ stderr

/-- Message printed when the position binary is missing. -/
def msgBinaryNotFound : String :=
  "position binary not found: " ++ POSITION_BIN

/-- Message printed when configuration is missing. -/
def msgConfigError : String :=
  "Error: HASS_URL and HASS_TOKEN must be set in .env or environment"

/-- Final summary line printed by `main`. -/
def msgSummary (success total : Nat) : String :=
  "Synced " ++ toString success ++ "/" ++ toString total ++ " entities"

/-- Embedding of `get_entity_state(hass_url, hass_token, entity_id)`:
returns the parsed body on HTTP 200, `none` otherwise, together with the
effect trace.  All failures are caught inside, so the result is total. -/
def get_entity_state (w : World) (hassUrl hassToken entityId : String) :
    Option PyVal × List Effect :=
  match w.http (statesUrl hassUrl entityId) (bearerAuth hassToken) with
  | .transportError e =>
      (Option.none, [.httpGet (statesUrl hassUrl entityId) (bearerAuth hassToken),
                     .printLine (msgRequestError entityId e)])
  | .response status body =>
      if status ≠ 200 then
        (Option.none, [.httpGet (statesUrl hassUrl entityId) (bearerAuth hassToken),
                       .printLine (msgFailedFetch entityId status)])
      else
        match body with
        | .error e =>
            (Option.none, [.httpGet (statesUrl hassUrl entityId) (bearerAuth hassToken),
                           .printLine (msgRequestError entityId e)])
        | .ok v => (some v, [.httpGet (statesUrl hassUrl entityId) (bearerAuth hassToken)])

/-- Argument list handed to `subprocess.run` by `sync_entity`. -/
def syncArgs (positionName latS lngS label : String) : List String :=
  [POSITION_BIN, "add", positionName, "--lat", latS, "--lng", lngS, "--label", label]

/-- Body of `sync_entity` after the fetch: given the fetched state (or
`none`) and the effect trace accumulated so far, run the extract-and-record
steps.  `Except.error` models an uncaught Python exception
(`AttributeError` on a non-dict `.get` receiver, `TypeError` when a
non-string label reaches `subprocess.run`). -/
def syncAfterFetch (w : World) (entityId positionName : String)
    (fetched : Option PyVal) (eff : List Effect) :
    Except String (Bool × List Effect) :=
  match fetched with
  | Option.none => .ok (false, eff)
  | some state =>
    if pyTruthy state = false then .ok (false, eff)
    else
      match dictGet state "attributes" (.vdict []) with
      | .error e => .error e
      | .ok attrs =>
        match dictGet attrs "latitude" .none with
        | .error e => .error e
        | .ok lat =>
          match dictGet attrs "longitude" .none with
          | .error e => .error e
          | .ok lng =>
            if isNone lat || isNone lng then
              match dictGet state "state" (.vstr "unknown") with
              | .error e => .error e
              | .ok stVal =>
                  .ok (false, eff ++ [.printLine (msgNoLocation entityId (pyStr stVal))])
            else
              match dictGet attrs "friendly_name" .none with
              | .error e => .error e
              | .ok fn =>
                match (if pyTruthy fn then fn else PyVal.vstr entityId) with
                | .vstr label =>
                  match w.run (syncArgs positionName (pyStr lat) (pyStr lng) label) with
                  | .exited c _ stderr =>
                      if c = 0 then
                        .ok (true, eff ++
                          [.procRun (syncArgs positionName (pyStr lat) (pyStr lng) label),
                           .printLine (msgSynced positionName label (pyStr lat) (pyStr lng))])
                      else
                        .ok (false, eff ++
                          [.procRun (syncArgs positionName (pyStr lat) (pyStr lng) label),
                           .printLine (msgFailedAdd positionName stderr)])
                  | .fileNotFound =>
                      .ok (false, eff ++
                        [.procRun (syncArgs positionName (pyStr lat) (pyStr lng) label),
                         .printLine msgBinaryNotFound])
                | _ => .error "TypeError"

/-- Embedding of `sync_entity(hass_url, hass_token, entity_id, position_name)`:
fetch the state via `get_entity_state`, then extract and record. -/
def sync_entity (w : World) (hassUrl hassToken entityId positionName : String) :
    Except String (Bool × List Effect) :=
  syncAfterFetch w entityId positionName
    (get_entity_state w hassUrl hassToken entityId).1
    (get_entity_state w hassUrl hassToken entityId).2

/-- Python `s.rstrip(slash)`: drop every trailing slash character. -/
def rstripSlashes (s : String) : String :=
  String.mk ((s.data.reverse.dropWhile (fun c => c == '/')).reverse)

/-- Truthiness of `os.environ.get(...)`: present and non-empty. -/
def envTruthy : Option String → Bool
  | Option.none => false
  | some s => !s.isEmpty

/-- The entity loop of `main`: sync each configured entity in order,
counting successes and concatenating effect traces. -/
def runEntities (w : World) (hassUrl hassToken : String) :
    List (String × String) → Except String (Nat × List Effect)
  | [] => .ok (0, [])
  | (entityId, positionName) :: rest =>
    match sync_entity w hassUrl hassToken entityId positionName with
    | .error e => .error e
    | .ok (ok1, eff1) =>
      match runEntities w hassUrl hassToken rest with
      | .error e => .error e
      | .ok (cnt, effs) => .ok ((if ok1 then 1 else 0) + cnt, eff1 ++ effs)

/-- Embedding of `main()`, parameterised by the configured entity mapping
and by the configuration-loading outcome (the values of `HASS_URL` and
`HASS_TOKEN` after the dotenv loads).  Returns the exit code and the
effect trace. -/
def mainWith (w : World) (entities : List (String × String))
    (hassUrlEnv hassTokenEnv : Option String) : Except String (Nat × List Effect) :=
  if !envTruthy hassUrlEnv || !envTruthy hassTokenEnv then
    .ok (1, [.printLine msgConfigError])
  else
    let hassUrl := rstripSlashes (hassUrlEnv.getD "")
    let hassToken := hassTokenEnv.getD ""
    match runEntities w hassUrl hassToken entities with
    | .error e => .error e
    | .ok (cnt, effs) =>
        .ok (if cnt = entities.length then 0 else 1,
             effs ++ [.printLine (msgSummary cnt entities.length)])

/-- Embedding of `main()` with the script's hard-coded `ENTITIES` mapping. -/
def mainEntry (w : World) (hassUrlEnv hassTokenEnv : Option String) :
    Except String (Nat × List Effect) :=
  mainWith w ENTITIES hassUrlEnv hassTokenEnv

/-- Success boolean of one entity sync (`false` also when the sync raises). -/
def syncSucceeded (w : World) (hassUrl hassToken entityId positionName : String) : Bool :=
  match sync_entity w hassUrl hassToken entityId positionName with
  | .ok (b, _) => b
  | .error _ => false

/-- The HTTP GET requests occurring in a trace, in order. -/
def httpGets (effs : List Effect) : List (String × String) :=
  effs.filterMap fun e =>
    match e with
    | .httpGet url auth => some (url, auth)
    | _ => Option.none

/-- The process invocations occurring in a trace, in order. -/
def procRuns (effs : List Effect) : List (List String) :=
  effs.filterMap fun e =>
    match e with
    | .procRun args => some args
    | _ => Option.none

/-! ### String discriminators

The proofs that the per-entity print lines never coincide with the final
summary line compare first or last characters of the strings. -/

/-- First character of a string, if any. -/
def strHead (s : String) : Option Char := s.data.head?

/-- Last character of a string, if any. -/
def strLast (s : String) : Option Char := s.data.getLast?

theorem data_append (a b : String) : (a ++ b).data = a.data ++ b.data := rfl

theorem strHead_append (a b : String) (c : Char) (h : strHead a = some c) :
    strHead (a ++ b) = some c := by
  unfold strHead at *
  rw [data_append]
  cases hd : a.data with
  | nil => rw [hd] at h; simp at h
  | cons x xs => rw [hd] at h; simpa using h

theorem strLast_append (a b : String) (c : Char) (h : strLast b = some c) :
    strLast (a ++ b) = some c := by
  unfold strLast at *
  rw [data_append, List.getLast?_append, h]
  rfl

theorem strHead_msgSummary (s n : Nat) : strHead (msgSummary s n) = some 'S' := by
  unfold msgSummary
  exact strHead_append _ _ _ (strHead_append _ _ _ (strHead_append _ _ _
    (strHead_append _ _ _ rfl)))

theorem strLast_msgSummary (s n : Nat) : strLast (msgSummary s n) = some 's' := by
  unfold msgSummary
  exact strLast_append _ _ _ rfl

theorem msgFailedFetch_ne_msgSummary (e : String) (st s n : Nat) :
    msgFailedFetch e st ≠ msgSummary s n := by
  intro h
  have h1 : strHead (msgFailedFetch e st) = some 'F' := by
    unfold msgFailedFetch
    exact strHead_append _ _ _ (strHead_append _ _ _ (strHead_append _ _ _ rfl))
  rw [h, strHead_msgSummary] at h1
  simp at h1

theorem msgRequestError_ne_msgSummary (e err : String) (s n : Nat) :
    msgRequestError e err ≠ msgSummary s n := by
  intro h
  have h1 : strHead (msgRequestError e err) = some 'R' := by
    unfold msgRequestError
    exact strHead_append _ _ _ (strHead_append _ _ _ (strHead_append _ _ _ rfl))
  rw [h, strHead_msgSummary] at h1
  simp at h1

theorem msgNoLocation_ne_msgSummary (e st : String) (s n : Nat) :
    msgNoLocation e st ≠ msgSummary s n := by
  intro h
  have h1 : strHead (msgNoLocation e st) = some 'N' := by
    unfold msgNoLocation
    exact strHead_append _ _ _ (strHead_append _ _ _ (strHead_append _ _ _
      (strHead_append _ _ _ rfl)))
  rw [h, strHead_msgSummary] at h1
  simp at h1

theorem msgSynced_ne_msgSummary (p l la lg : String) (s n : Nat) :
    msgSynced p l la lg ≠ msgSummary s n := by
  intro h
  have h1 : strLast (msgSynced p l la lg) = some ')' := by
    unfold msgSynced
    exact strLast_append _ _ _ rfl
  rw [h, strLast_msgSummary] at h1
  simp at h1

theorem msgFailedAdd_ne_msgSummary (p err : String) (s n : Nat) :
    msgFailedAdd p err ≠ msgSummary s n := by
  intro h
  have h1 : strHead (msgFailedAdd p err) = some 'F' := by
    unfold msgFailedAdd
    exact strHead_append _ _ _ (strHead_append _ _ _ (strHead_append _ _ _ rfl))
  rw [h, strHead_msgSummary] at h1
  simp at h1

theorem msgBinaryNotFound_ne_msgSummary (s n : Nat) :
    msgBinaryNotFound ≠ msgSummary s n := by
  intro h
  have h1 : strHead msgBinaryNotFound = some 'p' := by
    unfold msgBinaryNotFound
    exact strHead_append _ _ _ rfl
  rw [h, strHead_msgSummary] at h1
  simp at h1

/-- An effect that is neither an HTTP GET nor a summary print.  Every
effect after the leading HTTP GET in a `sync_entity` trace is of this
kind, which is what makes the final summary line of `main` unique. -/
def benign (e : Effect) : Prop :=
  (∀ url auth, e ≠ Effect.httpGet url auth) ∧ (∀ s n, e ≠ Effect.printLine (msgSummary s n))

theorem benign_procRun (args : List String) : benign (.procRun args) :=
  ⟨fun _ _ hne => Effect.noConfusion hne, fun _ _ hne => Effect.noConfusion hne⟩

theorem benign_printLine (m : String) (hm : ∀ s n : Nat, m ≠ msgSummary s n) :
    benign (.printLine m) :=
  ⟨fun _ _ hne => Effect.noConfusion hne,
   fun s n hne => hm s n (Effect.printLine.inj hne)⟩

/-- Exhaustive description of `get_entity_state` results: either a parsed
body with a bare HTTP GET trace, or no data with the GET followed by one
non-summary diagnostic print. -/
theorem get_entity_state_cases (w : World) (hassUrl hassToken entityId : String) :
    (∃ v, get_entity_state w hassUrl hassToken entityId =
        (some v, [.httpGet (statesUrl hassUrl entityId) (bearerAuth hassToken)])) ∨
    (∃ m, get_entity_state w hassUrl hassToken entityId =
        (Option.none, [.httpGet (statesUrl hassUrl entityId) (bearerAuth hassToken),
                       .printLine m]) ∧ ∀ s n : Nat, m ≠ msgSummary s n) := by
  unfold get_entity_state
  split
  · exact Or.inr ⟨_, rfl, msgRequestError_ne_msgSummary _ _⟩
  · split
    · exact Or.inr ⟨_, rfl, msgFailedFetch_ne_msgSummary _ _⟩
    · split
      · exact Or.inr ⟨_, rfl, msgRequestError_ne_msgSummary _ _⟩
      · exact Or.inl ⟨_, rfl⟩

/-- Trace shape of `syncAfterFetch`: whatever it does, it only appends
process invocations and non-summary prints to the trace it was given. -/
theorem syncAfterFetch_shape
    (w : World) (entityId positionName : String)
    (fetched : Option PyVal) (eff : List Effect)
    (b : Bool) (effs : List Effect)
    (h : syncAfterFetch w entityId positionName fetched eff = .ok (b, effs)) :
    ∃ rest, effs = eff ++ rest ∧ ∀ e ∈ rest, benign e := by
  unfold syncAfterFetch at h
  repeat' split at h
  all_goals try exact Except.noConfusion h
  all_goals
    injection h with h'
    injection h' with hb he
    subst he
  all_goals
    first
    | exact ⟨[], (List.append_nil _).symm, fun e he => absurd he (List.not_mem_nil e)⟩
    | (refine ⟨_, rfl, ?_⟩
       intro e he
       simp only [List.mem_cons, List.not_mem_nil, or_false] at he
       first
       | (rcases he with rfl | rfl <;>
           first
           | exact benign_procRun _
           | exact benign_printLine _ (msgSynced_ne_msgSummary _ _ _ _)
           | exact benign_printLine _ (msgFailedAdd_ne_msgSummary _ _)
           | exact benign_printLine _ msgBinaryNotFound_ne_msgSummary)
       | (subst he
          exact benign_printLine _ (msgNoLocation_ne_msgSummary _ _)))

/-- Every successful `sync_entity` trace starts with exactly one HTTP GET of
the entity state URL, and everything after it is a process invocation or a
non-summary print. -/
theorem sync_entity_shape
    (w : World) (hassUrl hassToken entityId positionName : String)
    (b : Bool) (effs : List Effect)
    (h : sync_entity w hassUrl hassToken entityId positionName = .ok (b, effs)) :
    ∃ rest, effs = Effect.httpGet (statesUrl hassUrl entityId) (bearerAuth hassToken) :: rest ∧
      ∀ e ∈ rest, benign e := by
  unfold sync_entity at h
  rcases get_entity_state_cases w hassUrl hassToken entityId with ⟨v, hg⟩ | ⟨m, hg, hm⟩
  · rw [hg] at h
    obtain ⟨rest, hre, hbe⟩ := syncAfterFetch_shape _ _ _ _ _ _ _ h
    exact ⟨rest, hre, hbe⟩
  · rw [hg] at h
    obtain ⟨rest, hre, hbe⟩ := syncAfterFetch_shape _ _ _ _ _ _ _ h
    refine ⟨Effect.printLine m :: rest, by simpa using hre, ?_⟩
    intro e he
    rcases List.mem_cons.mp he with rfl | he
    · exact benign_printLine _ hm
    · exact hbe e he

/-- Inversion of the entity loop on a cons cell. -/
theorem runEntities_cons
    (w : World) (hassUrl hassToken entityId positionName : String)
    (rest : List (String × String)) (cnt : Nat) (effs : List Effect)
    (h : runEntities w hassUrl hassToken ((entityId, positionName) :: rest) = .ok (cnt, effs)) :
    ∃ b eff1 cnt2 effs2,
      sync_entity w hassUrl hassToken entityId positionName = .ok (b, eff1) ∧
      runEntities w hassUrl hassToken rest = .ok (cnt2, effs2) ∧
      cnt = (if b then 1 else 0) + cnt2 ∧ effs = eff1 ++ effs2 := by
  unfold runEntities at h
  rcases hs : sync_entity w hassUrl hassToken entityId positionName with e | ⟨b, eff1⟩
  · rw [hs] at h; exact Except.noConfusion h
  · rw [hs] at h
    rcases hr : runEntities w hassUrl hassToken rest with e | ⟨cnt2, effs2⟩
    · rw [hr] at h; exact Except.noConfusion h
    · rw [hr] at h
      injection h with h'
      injection h' with h1 h2
      exact ⟨b, eff1, cnt2, effs2, rfl, rfl, h1.symm, h2.symm⟩

/-- The success counter of the entity loop counts exactly the entities whose
sync succeeded. -/
theorem runEntities_count
    (w : World) (hassUrl hassToken : String) (entities : List (String × String))
    (cnt : Nat) (effs : List Effect)
    (h : runEntities w hassUrl hassToken entities = .ok (cnt, effs)) :
    cnt = entities.countP (fun p => syncSucceeded w hassUrl hassToken p.1 p.2) := by
  induction entities generalizing cnt effs with
  | nil =>
    unfold runEntities at h
    injection h with h'
    injection h' with h1 h2
    simp [h1.symm]
  | cons p rest ih =>
    obtain ⟨entityId, positionName⟩ := p
    obtain ⟨b, eff1, cnt2, effs2, hs, hr, hc, he⟩ :=
      runEntities_cons _ _ _ _ _ _ _ _ h
    have hb : syncSucceeded w hassUrl hassToken entityId positionName = b := by
      unfold syncSucceeded; rw [hs]
    subst hc
    rw [ih _ _ hr, List.countP_cons]
    simp only [hb]
    cases b <;> simp [Nat.add_comm]

/-- The HTTP GET requests in a trace of an effect list of benign effects. -/
theorem httpGets_benign_nil (l : List Effect) (hb : ∀ e ∈ l, benign e) :
    httpGets l = [] := by
  unfold httpGets
  rw [List.filterMap_eq_nil_iff]
  intro e he
  rcases e with ⟨u, a⟩ | args | m
  · exact absurd rfl ((hb _ he).1 u a)
  · rfl
  · rfl

theorem httpGets_append (l1 l2 : List Effect) :
    httpGets (l1 ++ l2) = httpGets l1 ++ httpGets l2 := by
  unfold httpGets; rw [List.filterMap_append]

theorem httpGets_cons_get (u a : String) (l : List Effect) :
    httpGets (.httpGet u a :: l) = (u, a) :: httpGets l := by
  unfold httpGets; rw [List.filterMap_cons]

/-- The entity loop performs exactly one HTTP GET per configured entity,
in mapping order, whatever each entity's outcome is. -/
theorem runEntities_httpGets
    (w : World) (hassUrl hassToken : String) (entities : List (String × String))
    (cnt : Nat) (effs : List Effect)
    (h : runEntities w hassUrl hassToken entities = .ok (cnt, effs)) :
    httpGets effs = entities.map (fun p => (statesUrl hassUrl p.1, bearerAuth hassToken)) := by
  induction entities generalizing cnt effs with
  | nil =>
    unfold runEntities at h
    injection h with h'
    injection h' with h1 h2
    subst h2
    rfl
  | cons p rest ih =>
    obtain ⟨entityId, positionName⟩ := p
    obtain ⟨b, eff1, cnt2, effs2, hs, hr, hc, he⟩ :=
      runEntities_cons _ _ _ _ _ _ _ _ h
    subst he
    obtain ⟨r1, hr1, hb1⟩ := sync_entity_shape _ _ _ _ _ _ _ hs
    subst hr1
    rw [List.cons_append, httpGets_cons_get, httpGets_append,
      httpGets_benign_nil r1 hb1, List.nil_append, ih _ _ hr, List.map_cons]

/-- The summary line is never printed inside the entity loop. -/
theorem runEntities_no_summary
    (w : World) (hassUrl hassToken : String) (entities : List (String × String))
    (cnt : Nat) (effs : List Effect)
    (h : runEntities w hassUrl hassToken entities = .ok (cnt, effs)) :
    ∀ s n : Nat, Effect.printLine (msgSummary s n) ∉ effs := by
  induction entities generalizing cnt effs with
  | nil =>
    unfold runEntities at h
    injection h with h'
    injection h' with h1 h2
    subst h2
    intro s n hmem
    exact absurd hmem (List.not_mem_nil _)
  | cons p rest ih =>
    obtain ⟨entityId, positionName⟩ := p
    obtain ⟨b, eff1, cnt2, effs2, hs, hr, hc, he⟩ :=
      runEntities_cons _ _ _ _ _ _ _ _ h
    subst he
    obtain ⟨r1, hr1, hb1⟩ := sync_entity_shape _ _ _ _ _ _ _ hs
    subst hr1
    intro s n hmem
    rcases List.mem_append.mp hmem with hmem1 | hmem2
    · rcases List.mem_cons.mp hmem1 with heq | hmem1
      · exact Effect.noConfusion heq
      · exact absurd rfl ((hb1 _ hmem1).2 s n)
    · exact ih _ _ hr s n hmem2

/-- With both configuration values present and non-empty, `main` runs the
entity loop on the slash-stripped URL and appends the summary line. -/
theorem mainWith_ok_inversion
    (w : World) (entities : List (String × String)) (u t : String)
    (code : Nat) (effs : List Effect)
    (hu : u ≠ "") (ht : t ≠ "")
    (h : mainWith w entities (some u) (some t) = .ok (code, effs)) :
    ∃ cnt runEffs,
      runEntities w (rstripSlashes u) t entities = .ok (cnt, runEffs) ∧
      code = (if cnt = entities.length then 0 else 1) ∧
      effs = runEffs ++ [.printLine (msgSummary cnt entities.length)] := by
  have hu' : u.isEmpty = false := by
    rw [Bool.eq_false_iff]; intro hemp; exact hu ((String.isEmpty_iff u).mp hemp)
  have ht' : t.isEmpty = false := by
    rw [Bool.eq_false_iff]; intro hemp; exact ht ((String.isEmpty_iff t).mp hemp)
  unfold mainWith envTruthy at h
  simp only [hu', ht', Bool.not_false, Bool.not_true, Bool.or_self, if_false,
    Option.getD_some, Bool.or_false, Bool.false_or, if_neg, Bool.false_eq_true,
    not_false_eq_true, reduceIte] at h
  rcases hr : runEntities w (rstripSlashes u) t entities with e | ⟨cnt, runEffs⟩
  · rw [hr] at h; exact Except.noConfusion h
  · rw [hr] at h
    injection h with h'
    injection h' with h1 h2
    exact ⟨cnt, runEffs, rfl, h1.symm, h2.symm⟩

/-! ### Concrete worlds used by witnesses and counterexamples -/

/-- A state record with coordinates and a friendly name. -/
def demoState : PyVal :=
  .vdict [("state", .vstr "home"),
          ("attributes", .vdict
            [("latitude", .vfloat 400 1), ("longitude", .vfloat (-739) 1),
             ("friendly_name", .vstr "Harper")])]

/-- A world where every fetch returns `demoState` and the recorder succeeds. -/
def okWorld : World :=
  { http := fun _ _ => .response 200 (.ok demoState),
    run := fun _ => .exited 0 "" "" }

/-- A second world extensionally equal to `okWorld`. -/
def okWorldB : World :=
  { http := fun _ _ => .response 200 (.ok demoState),
    run := fun _ => .exited 0 "" "" }

/-- A world where every request fails at transport level and the position
binary is missing. -/
def noopWorld : World :=
  { http := fun _ _ => .transportError "connection refused",
    run := fun _ => .fileNotFound }

/-- C2: if the service URL or the bearer token is missing or empty after
configuration loading, main prints the configuration error and returns exit
code 1, and its trace contains no HTTP request and no process invocation. -/
theorem c2_missing_config_aborts
    (w : World) (entities : List (String × String)) (urlEnv tokenEnv : Option String)
    (h : envTruthy urlEnv = false ∨ envTruthy tokenEnv = false) :
    mainWith w entities urlEnv tokenEnv = .ok (1, [.printLine msgConfigError]) ∧
    (∀ u a, Effect.httpGet u a ∉ [Effect.printLine msgConfigError]) ∧
    (∀ args, Effect.procRun args ∉ [Effect.printLine msgConfigError]) := by
  refine ⟨?_, ?_, ?_⟩
  · unfold mainWith
    rcases h with h | h <;> rw [h] <;> simp
  · intro u a hmem
    rcases List.mem_cons.mp hmem with heq | hmem
    · exact Effect.noConfusion heq
    · exact absurd hmem (List.not_mem_nil _)
  · intro args hmem
    rcases List.mem_cons.mp hmem with heq | hmem
    · exact Effect.noConfusion heq
    · exact absurd hmem (List.not_mem_nil _)

/-- Witness for C2 at a concrete input: `HASS_URL` missing entirely. -/
theorem c2_missing_config_aborts_witness :
    mainWith noopWorld ENTITIES Option.none (some "tok") =
      .ok (1, [.printLine msgConfigError]) ∧
    (∀ u a, Effect.httpGet u a ∉ [Effect.printLine msgConfigError]) ∧
    (∀ args, Effect.procRun args ∉ [Effect.printLine msgConfigError]) :=
  c2_missing_config_aborts noopWorld ENTITIES Option.none (some "tok") (Or.inl rfl)

/-- C3: `get_entity_state` returns a parsed record exactly when the response
has status 200 and a parseable JSON body; any non-200 status, transport
failure or parse failure yields the no-data signal.  The embedding returns a
plain `Option`, so no exception reaches the caller in any case. -/
theorem c3_fetch_success_iff_200_parseable
    (w : World) (hassUrl hassToken entityId : String) (v : PyVal) :
    (get_entity_state w hassUrl hassToken entityId).1 = some v ↔
      w.http (statesUrl hassUrl entityId) (bearerAuth hassToken) =
        .response 200 (.ok v) := by
  unfold get_entity_state
  rcases hw : w.http (statesUrl hassUrl entityId) (bearerAuth hassToken) with ⟨status, body⟩ | e
  · by_cases hs : status = 200
    · subst hs
      rcases body with e | v'
      · simp
      · simp [HttpResult.response.injEq]
    · simp [hs]
  · simp

/-- C9: two runs over the same configuration and extensionally identical
upstream behaviour (same response to every request, same outcome for every
invocation) produce identical results: same exit code, same trace, hence
same per-entity outcomes and recorder arguments. -/
theorem c9_deterministic
    (w1 w2 : World) (entities : List (String × String)) (urlEnv tokenEnv : Option String)
    (hhttp : ∀ url auth, w1.http url auth = w2.http url auth)
    (hrun : ∀ args, w1.run args = w2.run args) :
    mainWith w1 entities urlEnv tokenEnv = mainWith w2 entities urlEnv tokenEnv := by
  have hw : w1 = w2 := by
    cases w1
    cases w2
    congr 1
    · funext url auth; exact hhttp url auth
    · funext args; exact hrun args
  rw [hw]

/-- Witness for C9 at concrete worlds. -/
theorem c9_deterministic_witness :
    mainWith okWorld ENTITIES (some "http://h/") (some "tok") =
      mainWith okWorldB ENTITIES (some "http://h/") (some "tok") :=
  c9_deterministic okWorld okWorldB ENTITIES (some "http://h/") (some "tok")
    (fun _ _ => rfl) (fun _ => rfl)

/-- C10: a 200 response whose parsed body is falsy (empty object, null,
empty string, ...) makes `sync_entity` return `False` immediately: the trace
holds only the HTTP GET, with no print and no recorder invocation. -/
theorem c10_falsy_body_fetch_failure
    (w : World) (hassUrl hassToken entityId positionName : String) (v : PyVal)
    (hresp : w.http (statesUrl hassUrl entityId) (bearerAuth hassToken) =
      .response 200 (.ok v))
    (hfalsy : pyTruthy v = false) :
    sync_entity w hassUrl hassToken entityId positionName =
      .ok (false, [.httpGet (statesUrl hassUrl entityId) (bearerAuth hassToken)]) := by
  unfold sync_entity get_entity_state
  rw [hresp]
  simp [syncAfterFetch, hfalsy]

/-- Witness for C10: a 200 response with body `{}`. -/
theorem c10_falsy_body_fetch_failure_witness :
    sync_entity
      { http := fun _ _ => .response 200 (.ok (.vdict [])),
        run := fun _ => .exited 0 "" "" }
      "http://h" "tok" "person.harper" "harper" =
      .ok (false, [.httpGet (statesUrl "http://h" "person.harper") (bearerAuth "tok")]) :=
  c10_falsy_body_fetch_failure
    { http := fun _ _ => .response 200 (.ok (.vdict [])),
      run := fun _ => .exited 0 "" "" }
    "http://h" "tok" "person.harper" "harper" (.vdict []) rfl rfl

/-- C1: any run that passes the configuration check and completes prints the
summary line exactly once — as the last effect, with the success count and
the entity total — and exits 0 exactly when every entity succeeded. -/
theorem c1_summary_and_exit_code
    (w : World) (entities : List (String × String)) (u t : String)
    (code : Nat) (effs : List Effect)
    (hu : u ≠ "") (ht : t ≠ "")
    (h : mainWith w entities (some u) (some t) = .ok (code, effs)) :
    ∃ runEffs,
      effs = runEffs ++
        [.printLine (msgSummary
          (entities.countP fun p => syncSucceeded w (rstripSlashes u) t p.1 p.2)
          entities.length)] ∧
      Effect.printLine (msgSummary
          (entities.countP fun p => syncSucceeded w (rstripSlashes u) t p.1 p.2)
          entities.length) ∉ runEffs ∧
      code = if (entities.countP fun p => syncSucceeded w (rstripSlashes u) t p.1 p.2)
                = entities.length then 0 else 1 := by
  obtain ⟨cnt, runEffs, hr, hcode, heffs⟩ :=
    mainWith_ok_inversion w entities u t code effs hu ht h
  have hcnt := runEntities_count _ _ _ _ _ _ hr
  subst hcnt
  exact ⟨runEffs, heffs, runEntities_no_summary _ _ _ _ _ _ hr _ _, hcode⟩

/-- Witness for C1: one entity, successful sync, summary `1/1`, exit 0. -/
theorem c1_summary_and_exit_code_witness :
    ∃ runEffs,
      ([Effect.httpGet "http://h/api/states/person.harper" "Bearer tok",
        Effect.procRun ["position", "add", "harper", "--lat", "40.0", "--lng", "-73.9",
                        "--label", "Harper"],
        Effect.printLine "Synced harper: Harper (40.0, -73.9)",
        Effect.printLine "Synced 1/1 entities"] : List Effect) = runEffs ++
        [.printLine (msgSummary
          (ENTITIES.countP fun p => syncSucceeded okWorld (rstripSlashes "http://h/") "tok" p.1 p.2)
          ENTITIES.length)] ∧
      Effect.printLine (msgSummary
          (ENTITIES.countP fun p => syncSucceeded okWorld (rstripSlashes "http://h/") "tok" p.1 p.2)
          ENTITIES.length) ∉ runEffs ∧
      0 = if (ENTITIES.countP fun p => syncSucceeded okWorld (rstripSlashes "http://h/") "tok" p.1 p.2)
                = ENTITIES.length then 0 else 1 :=
  c1_summary_and_exit_code okWorld ENTITIES "http://h/" "tok" 0 _
    (by decide) (by decide) rfl

/-- C5: a completed run fetches each configured entity exactly once, in
mapping order, whatever the outcome of each entity is: the HTTP GETs of the
trace are exactly the mapped entity URLs, in order, for every world — in
particular no entity's failure suppresses another entity's fetch. -/
theorem c5_each_entity_fetched_once_in_order
    (w : World) (entities : List (String × String)) (u t : String)
    (code : Nat) (effs : List Effect)
    (hu : u ≠ "") (ht : t ≠ "")
    (h : mainWith w entities (some u) (some t) = .ok (code, effs)) :
    httpGets effs =
      entities.map fun p => (statesUrl (rstripSlashes u) p.1, bearerAuth t) := by
  obtain ⟨cnt, runEffs, hr, hcode, heffs⟩ :=
    mainWith_ok_inversion w entities u t code effs hu ht h
  subst heffs
  rw [httpGets_append, runEntities_httpGets _ _ _ _ _ _ hr]
  rw [show httpGets [Effect.printLine (msgSummary cnt entities.length)] = [] from rfl,
    List.append_nil]

/-- A world where every fetch fails with HTTP 404. -/
def failWorld : World :=
  { http := fun _ _ => .response 404 (.error "no body"),
    run := fun _ => .fileNotFound }

/-- Witness for C5: two entities, both failing with HTTP 404; both are still
fetched, in order. -/
theorem c5_each_entity_fetched_once_in_order_witness :
    httpGets
      [Effect.httpGet "http://h/api/states/person.a" "Bearer tok",
       Effect.printLine "Failed to fetch person.a: HTTP 404",
       Effect.httpGet "http://h/api/states/person.b" "Bearer tok",
       Effect.printLine "Failed to fetch person.b: HTTP 404",
       Effect.printLine "Synced 0/2 entities"] =
      [("person.a", "pa"), ("person.b", "pb")].map
        fun p => (statesUrl (rstripSlashes "http://h") p.1, bearerAuth "tok") :=
  c5_each_entity_fetched_once_in_order failWorld
    [("person.a", "pa"), ("person.b", "pb")] "http://h" "tok" 1 _
    (by decide) (by decide) rfl

/-- The first character surviving `dropWhile` of slashes is not a slash. -/
theorem head_dropWhile_slash (l : List Char) :
    (l.dropWhile (fun c => c == '/')).head? ≠ some '/' := by
  induction l with
  | nil => simp
  | cons c cs ih =>
    by_cases hc : (c == '/') = true
    · rw [List.dropWhile_cons, if_pos hc]
      exact ih
    · rw [List.dropWhile_cons, if_neg hc]
      intro hh
      simp only [List.head?_cons, Option.some.injEq] at hh
      exact hc (by simp [hh])

/-- The slash-stripped URL has no trailing slash. -/
theorem rstripSlashes_no_trailing_slash (s : String) :
    strLast (rstripSlashes s) ≠ some '/' := by
  unfold strLast rstripSlashes
  rw [show (String.mk ((s.data.reverse.dropWhile (fun c => c == '/')).reverse)).data
      = (s.data.reverse.dropWhile (fun c => c == '/')).reverse from rfl]
  rw [List.getLast?_reverse]
  exact head_dropWhile_slash _

/-- C8: trailing slashes are stripped from the configured URL before any
request is built: every fetch URL of a completed run is the stripped base
followed by `/api/states/` and the entity id, and the stripped base does not
end in a slash. -/
theorem c8_trailing_slash_stripped
    (w : World) (entities : List (String × String)) (u t : String)
    (code : Nat) (effs : List Effect)
    (hu : u ≠ "") (ht : t ≠ "")
    (h : mainWith w entities (some u) (some t) = .ok (code, effs)) :
    httpGets effs =
      (entities.map fun p => (rstripSlashes u ++ "/api/states/" ++ p.1, bearerAuth t)) ∧
    strLast (rstripSlashes u) ≠ some '/' := by
  refine ⟨?_, rstripSlashes_no_trailing_slash u⟩
  obtain ⟨cnt, runEffs, hr, hcode, heffs⟩ :=
    mainWith_ok_inversion w entities u t code effs hu ht h
  subst heffs
  rw [httpGets_append, runEntities_httpGets _ _ _ _ _ _ hr]
  rw [show httpGets [Effect.printLine (msgSummary cnt entities.length)] = [] from rfl,
    List.append_nil]
  rfl

/-- Witness for C8: a URL with three trailing slashes. -/
theorem c8_trailing_slash_stripped_witness :
    httpGets
      [Effect.httpGet "http://h/api/states/person.harper" "Bearer tok",
       Effect.procRun ["position", "add", "harper", "--lat", "40.0", "--lng", "-73.9",
                       "--label", "Harper"],
       Effect.printLine "Synced harper: Harper (40.0, -73.9)",
       Effect.printLine "Synced 1/1 entities"] =
      (ENTITIES.map fun p =>
        (rstripSlashes "http://h///" ++ "/api/states/" ++ p.1, bearerAuth "tok")) ∧
    strLast (rstripSlashes "http://h///") ≠ some '/' :=
  c8_trailing_slash_stripped okWorld ENTITIES "http://h///" "tok" 0 _
    (by decide) (by decide) rfl

/-- On a 200 response with parsed body `v`, `sync_entity` is the
extract-and-record phase started on `v` with the bare GET trace. -/
theorem sync_entity_200
    (w : World) (hassUrl hassToken entityId positionName : String) (v : PyVal)
    (hresp : w.http (statesUrl hassUrl entityId) (bearerAuth hassToken) =
      .response 200 (.ok v)) :
    sync_entity w hassUrl hassToken entityId positionName =
      syncAfterFetch w entityId positionName (some v)
        [.httpGet (statesUrl hassUrl entityId) (bearerAuth hassToken)] := by
  unfold sync_entity get_entity_state
  rw [hresp]
  rfl

/-- With a nonempty dict state whose attributes provide non-null latitude
and longitude and resolve to the string label `label`, the
extract-and-record phase is exactly one recorder invocation with the fixed
argument list, succeeding precisely on exit status 0. -/
theorem syncAfterFetch_with_coords
    (w : World) (entityId positionName : String) (eff : List Effect)
    (fields al : List (String × PyVal)) (lat lng : PyVal) (label : String)
    (hne : fields ≠ [])
    (hattrs : fields.lookup "attributes" = some (.vdict al))
    (hlat : al.lookup "latitude" = some lat) (hlatN : isNone lat = false)
    (hlng : al.lookup "longitude" = some lng) (hlngN : isNone lng = false)
    (hlabel : (if pyTruthy ((al.lookup "friendly_name").getD .none)
        then (al.lookup "friendly_name").getD .none
        else PyVal.vstr entityId) = .vstr label) :
    syncAfterFetch w entityId positionName (some (.vdict fields)) eff =
      match w.run (syncArgs positionName (pyStr lat) (pyStr lng) label) with
      | .exited c _ stderr =>
          if c = 0 then
            .ok (true, eff ++
              [.procRun (syncArgs positionName (pyStr lat) (pyStr lng) label),
               .printLine (msgSynced positionName label (pyStr lat) (pyStr lng))])
          else
            .ok (false, eff ++
              [.procRun (syncArgs positionName (pyStr lat) (pyStr lng) label),
               .printLine (msgFailedAdd positionName stderr)])
      | .fileNotFound =>
          .ok (false, eff ++
            [.procRun (syncArgs positionName (pyStr lat) (pyStr lng) label),
             .printLine msgBinaryNotFound]) := by
  have htr : pyTruthy (.vdict fields) = true := by
    unfold pyTruthy
    simp [hne]
  simp only [syncAfterFetch, htr, Bool.true_eq_false, dictGet, hattrs,
    Option.getD_some, hlat, hlng, hlatN, hlngN, Bool.or_self, Bool.false_eq_true,
    if_false, hlabel]

/-- C6: when the state provides both coordinates, the recorder is invoked
with exactly the fixed argument list (binary, "add", position name, "--lat",
latitude string, "--lng", longitude string, "--label", label); the entity
succeeds precisely when the process exits 0, and a non-zero exit or a
missing binary yields failure for this entity alone. -/
theorem c6_recorder_contract
    (w : World) (hassUrl hassToken entityId positionName : String)
    (fields al : List (String × PyVal)) (lat lng : PyVal) (label : String)
    (hresp : w.http (statesUrl hassUrl entityId) (bearerAuth hassToken) =
      .response 200 (.ok (.vdict fields)))
    (hattrs : fields.lookup "attributes" = some (.vdict al))
    (hlat : al.lookup "latitude" = some lat) (hlatN : isNone lat = false)
    (hlng : al.lookup "longitude" = some lng) (hlngN : isNone lng = false)
    (hlabel : (if pyTruthy ((al.lookup "friendly_name").getD .none)
        then (al.lookup "friendly_name").getD .none
        else PyVal.vstr entityId) = .vstr label) :
    (∀ out err,
      w.run (syncArgs positionName (pyStr lat) (pyStr lng) label) = .exited 0 out err →
      sync_entity w hassUrl hassToken entityId positionName =
        .ok (true, [.httpGet (statesUrl hassUrl entityId) (bearerAuth hassToken),
          .procRun (syncArgs positionName (pyStr lat) (pyStr lng) label),
          .printLine (msgSynced positionName label (pyStr lat) (pyStr lng))])) ∧
    (∀ c out err, c ≠ 0 →
      w.run (syncArgs positionName (pyStr lat) (pyStr lng) label) = .exited c out err →
      sync_entity w hassUrl hassToken entityId positionName =
        .ok (false, [.httpGet (statesUrl hassUrl entityId) (bearerAuth hassToken),
          .procRun (syncArgs positionName (pyStr lat) (pyStr lng) label),
          .printLine (msgFailedAdd positionName err)])) ∧
    (w.run (syncArgs positionName (pyStr lat) (pyStr lng) label) = .fileNotFound →
      sync_entity w hassUrl hassToken entityId positionName =
        .ok (false, [.httpGet (statesUrl hassUrl entityId) (bearerAuth hassToken),
          .procRun (syncArgs positionName (pyStr lat) (pyStr lng) label),
          .printLine msgBinaryNotFound])) := by
  have hne : fields ≠ [] := by
    intro hfe
    rw [hfe] at hattrs
    simp at hattrs
  have hcore := syncAfterFetch_with_coords w entityId positionName
    [.httpGet (statesUrl hassUrl entityId) (bearerAuth hassToken)]
    fields al lat lng label hne hattrs hlat hlatN hlng hlngN hlabel
  rw [sync_entity_200 w hassUrl hassToken entityId positionName _ hresp]
  refine ⟨?_, ?_, ?_⟩
  · intro out err hw
    rw [hcore, hw]
    simp
  · intro c out err hc hw
    rw [hcore, hw]
    simp [hc]
  · intro hw
    rw [hcore, hw]
    rfl

/-- Witness for C6: `demoState` with a succeeding recorder. -/
theorem c6_recorder_contract_witness :
    sync_entity okWorld "http://h" "tok" "person.harper" "harper" =
      .ok (true, [Effect.httpGet "http://h/api/states/person.harper" "Bearer tok",
        Effect.procRun ["position", "add", "harper", "--lat", "40.0", "--lng", "-73.9",
                        "--label", "Harper"],
        Effect.printLine "Synced harper: Harper (40.0, -73.9)"]) :=
  (c6_recorder_contract okWorld "http://h" "tok" "person.harper" "harper"
    [("state", .vstr "home"),
     ("attributes", .vdict
       [("latitude", .vfloat 400 1), ("longitude", .vfloat (-739) 1),
        ("friendly_name", .vstr "Harper")])]
    [("latitude", .vfloat 400 1), ("longitude", .vfloat (-739) 1),
     ("friendly_name", .vstr "Harper")]
    (.vfloat 400 1) (.vfloat (-739) 1) "Harper"
    rfl rfl rfl rfl rfl rfl rfl).1 "" "" rfl

theorem procRuns_append (l1 l2 : List Effect) :
    procRuns (l1 ++ l2) = procRuns l1 ++ procRuns l2 := by
  unfold procRuns; rw [List.filterMap_append]

/-- With coordinates present, the extract-and-record phase appends exactly
one recorder invocation (with the resolved label) to the trace, whatever
the process outcome is. -/
theorem syncAfterFetch_coords_procRuns
    (w : World) (entityId positionName : String) (eff : List Effect)
    (fields al : List (String × PyVal)) (lat lng : PyVal) (label : String)
    (hne : fields ≠ [])
    (hattrs : fields.lookup "attributes" = some (.vdict al))
    (hlat : al.lookup "latitude" = some lat) (hlatN : isNone lat = false)
    (hlng : al.lookup "longitude" = some lng) (hlngN : isNone lng = false)
    (hlabel : (if pyTruthy ((al.lookup "friendly_name").getD .none)
        then (al.lookup "friendly_name").getD .none
        else PyVal.vstr entityId) = .vstr label) :
    ∃ b effs,
      syncAfterFetch w entityId positionName (some (.vdict fields)) eff = .ok (b, effs) ∧
      procRuns effs =
        procRuns eff ++ [syncArgs positionName (pyStr lat) (pyStr lng) label] := by
  rw [syncAfterFetch_with_coords w entityId positionName eff fields al lat lng label
    hne hattrs hlat hlatN hlng hlngN hlabel]
  split
  · split
    · exact ⟨true, _, rfl, by rw [procRuns_append]; rfl⟩
    · exact ⟨false, _, rfl, by rw [procRuns_append]; rfl⟩
  · exact ⟨false, _, rfl, by rw [procRuns_append]; rfl⟩

/-- C7 (amended): with both coordinates present, the label handed to the
recorder is `attributes.friendly_name` when that field is present and
non-empty, and the entity id when the field is absent or empty (Python
`or` falls back on any falsy value, so an empty friendly name is ignored). -/
theorem c7_label_resolution
    (w : World) (hassUrl hassToken entityId positionName : String)
    (fields al : List (String × PyVal)) (lat lng : PyVal)
    (hresp : w.http (statesUrl hassUrl entityId) (bearerAuth hassToken) =
      .response 200 (.ok (.vdict fields)))
    (hattrs : fields.lookup "attributes" = some (.vdict al))
    (hlat : al.lookup "latitude" = some lat) (hlatN : isNone lat = false)
    (hlng : al.lookup "longitude" = some lng) (hlngN : isNone lng = false) :
    (∀ s : String, al.lookup "friendly_name" = some (.vstr s) → s ≠ "" →
      ∃ b effs, sync_entity w hassUrl hassToken entityId positionName = .ok (b, effs) ∧
        procRuns effs = [syncArgs positionName (pyStr lat) (pyStr lng) s]) ∧
    ((al.lookup "friendly_name" = Option.none ∨
        al.lookup "friendly_name" = some (.vstr "")) →
      ∃ b effs, sync_entity w hassUrl hassToken entityId positionName = .ok (b, effs) ∧
        procRuns effs = [syncArgs positionName (pyStr lat) (pyStr lng) entityId]) := by
  have hne : fields ≠ [] := by
    intro hfe
    rw [hfe] at hattrs
    simp at hattrs
  constructor
  · intro s hfn hs
    have hs' : s.isEmpty = false := by
      rw [Bool.eq_false_iff]
      intro hemp
      exact hs ((String.isEmpty_iff s).mp hemp)
    have hps : pyTruthy (PyVal.vstr s) = true := by
      show (!s.isEmpty) = true
      rw [hs']
      rfl
    have hlabel : (if pyTruthy ((al.lookup "friendly_name").getD .none)
        then (al.lookup "friendly_name").getD .none
        else PyVal.vstr entityId) = .vstr s := by
      rw [hfn]
      simp only [Option.getD_some, hps, if_true]
    obtain ⟨b, effs, hsync, hpr⟩ := syncAfterFetch_coords_procRuns w entityId positionName
      [.httpGet (statesUrl hassUrl entityId) (bearerAuth hassToken)]
      fields al lat lng s hne hattrs hlat hlatN hlng hlngN hlabel
    refine ⟨b, effs, ?_, ?_⟩
    · rw [sync_entity_200 w hassUrl hassToken entityId positionName _ hresp]
      exact hsync
    · rw [hpr]
      rfl
  · intro hfn
    have hlabel : (if pyTruthy ((al.lookup "friendly_name").getD .none)
        then (al.lookup "friendly_name").getD .none
        else PyVal.vstr entityId) = .vstr entityId := by
      rcases hfn with hfn | hfn <;> rw [hfn] <;> rfl
    obtain ⟨b, effs, hsync, hpr⟩ := syncAfterFetch_coords_procRuns w entityId positionName
      [.httpGet (statesUrl hassUrl entityId) (bearerAuth hassToken)]
      fields al lat lng entityId hne hattrs hlat hlatN hlng hlngN hlabel
    refine ⟨b, effs, ?_, ?_⟩
    · rw [sync_entity_200 w hassUrl hassToken entityId positionName _ hresp]
      exact hsync
    · rw [hpr]
      rfl

/-- A state whose friendly name is present but empty. -/
def emptyNameState : PyVal :=
  .vdict [("state", .vstr "home"),
          ("attributes", .vdict
            [("latitude", .vfloat 400 1), ("longitude", .vfloat (-739) 1),
             ("friendly_name", .vstr "")])]

/-- A world serving `emptyNameState` with a succeeding recorder. -/
def emptyNameWorld : World :=
  { http := fun _ _ => .response 200 (.ok emptyNameState),
    run := fun _ => .exited 0 "" "" }

/-- Counterexample to C7 as stated: `attributes.friendly_name` is present
(with value `""`), yet the label passed to the recorder is the entity id
`"person.harper"`, not the present friendly name. -/
theorem c7_label_resolution_counterexample :
    sync_entity emptyNameWorld "http://h" "tok" "person.harper" "harper" =
      .ok (true, [Effect.httpGet "http://h/api/states/person.harper" "Bearer tok",
        Effect.procRun ["position", "add", "harper", "--lat", "40.0", "--lng", "-73.9",
                        "--label", "person.harper"],
        Effect.printLine "Synced harper: person.harper (40.0, -73.9)"]) ∧
    ("person.harper" : String) ≠ "" :=
  ⟨rfl, by decide⟩

/-- Witness for C7 (amended), non-empty friendly name branch. -/
theorem c7_label_resolution_witness :
    ∃ b effs, sync_entity okWorld "http://h" "tok" "person.harper" "harper" = .ok (b, effs) ∧
      procRuns effs = [syncArgs "harper" (pyStr (.vfloat 400 1)) (pyStr (.vfloat (-739) 1))
        "Harper"] :=
  (c7_label_resolution okWorld "http://h" "tok" "person.harper" "harper"
    [("state", .vstr "home"),
     ("attributes", .vdict
       [("latitude", .vfloat 400 1), ("longitude", .vfloat (-739) 1),
        ("friendly_name", .vstr "Harper")])]
    [("latitude", .vfloat 400 1), ("longitude", .vfloat (-739) 1),
     ("friendly_name", .vstr "Harper")]
    (.vfloat 400 1) (.vfloat (-739) 1)
    rfl rfl rfl rfl rfl rfl).1 "Harper" rfl (by decide)

/-- C4 (amended): for every non-empty (truthy) dict state record whose
attributes object is absent or lacks latitude or longitude, `sync_entity`
returns `False`, logs the no-location line with the record's status string,
never invokes the recorder, and raises no exception.  (A falsy record such
as `{}` is instead treated as a fetch failure and logs nothing.) -/
theorem c4_missing_coordinate_fails_with_log
    (w : World) (hassUrl hassToken entityId positionName : String)
    (fields : List (String × PyVal))
    (hresp : w.http (statesUrl hassUrl entityId) (bearerAuth hassToken) =
      .response 200 (.ok (.vdict fields)))
    (hne : fields ≠ [])
    (hattrs : fields.lookup "attributes" = Option.none ∨
      ∃ al, fields.lookup "attributes" = some (.vdict al) ∧
        (al.lookup "latitude" = Option.none ∨ al.lookup "longitude" = Option.none)) :
    sync_entity w hassUrl hassToken entityId positionName =
      .ok (false, [.httpGet (statesUrl hassUrl entityId) (bearerAuth hassToken),
        .printLine (msgNoLocation entityId
          (pyStr ((fields.lookup "state").getD (.vstr "unknown"))))]) := by
  have htr : pyTruthy (.vdict fields) = true := by
    unfold pyTruthy
    simp [hne]
  rw [sync_entity_200 w hassUrl hassToken entityId positionName _ hresp]
  rcases hattrs with hno | ⟨al, hal, hcoord⟩
  · simp only [syncAfterFetch, htr, Bool.true_eq_false, dictGet, hno,
      Option.getD_none, List.lookup_nil, isNone, Bool.true_or, if_true]
    rfl
  · rcases hcoord with hlatn | hlngn
    · simp only [syncAfterFetch, htr, Bool.true_eq_false, dictGet, hal,
        Option.getD_some, hlatn, Option.getD_none, isNone, Bool.true_or, if_true]
      rfl
    · simp only [syncAfterFetch, htr, Bool.true_eq_false, dictGet, hal,
        Option.getD_some, hlngn, Option.getD_none, isNone, Bool.or_true, if_true]
      rfl

/-- A state with a status string but no latitude. -/
def noCoordState : PyVal :=
  .vdict [("state", .vstr "away"),
          ("attributes", .vdict [("longitude", .vfloat (-739) 1)])]

/-- A world serving `noCoordState`. -/
def noCoordWorld : World :=
  { http := fun _ _ => .response 200 (.ok noCoordState),
    run := fun _ => .exited 0 "" "" }

/-- Witness for C4 (amended): a record lacking latitude is marked failed,
the status string is logged, and no recorder invocation occurs. -/
theorem c4_missing_coordinate_fails_with_log_witness :
    sync_entity noCoordWorld "http://h" "tok" "person.harper" "harper" =
      .ok (false, [Effect.httpGet "http://h/api/states/person.harper" "Bearer tok",
        Effect.printLine "No location for person.harper (state: away)"]) :=
  c4_missing_coordinate_fails_with_log noCoordWorld "http://h" "tok"
    "person.harper" "harper"
    [("state", .vstr "away"),
     ("attributes", .vdict [("longitude", .vfloat (-739) 1)])]
    rfl (List.cons_ne_nil _ _)
    (Or.inr ⟨[("longitude", .vfloat (-739) 1)], rfl, Or.inl rfl⟩)

/-- A world serving the empty JSON object for every entity. -/
def emptyStateWorld : World :=
  { http := fun _ _ => .response 200 (.ok (.vdict [])),
    run := fun _ => .exited 0 "" "" }

/-- Counterexample to C4 as stated: for the state record `{}` both
coordinates are absent and `sync_entity` does return `False` without
touching the recorder, but nothing is logged at all — in particular not the
no-location line with the status string — because the falsy record is
treated as a fetch failure first. -/
theorem c4_missing_coordinate_counterexample :
    sync_entity emptyStateWorld "http://h" "tok" "person.harper" "harper" =
      .ok (false, [Effect.httpGet "http://h/api/states/person.harper" "Bearer tok"]) ∧
    Effect.printLine (msgNoLocation "person.harper" "unknown") ∉
      ([Effect.httpGet "http://h/api/states/person.harper" "Bearer tok"] : List Effect) := by
  refine ⟨rfl, ?_⟩
  intro hmem
  rcases List.mem_cons.mp hmem with heq | hm
  · exact Effect.noConfusion heq
  · exact absurd hm (List.not_mem_nil _)
